import Mathlib

/-!
# Verification of the redeemer delegation policy

Shallow embedding of src/redeemer/delegator.py.

Modelling conventions:
* Python Decimal values are embedded as exact rationals.  The source derives
  its chain parameters by Decimal division (28 significant digits); the
  theorems below quantify over arbitrary parameter values, so only the exact
  relation MIN_VESTS = MIN_VESTS_DELTA * 10 (an exact Decimal multiplication
  in the source) is assumed where needed.
* Fallible operations (Decimal("..."), strptime) become Option-returning
  parsers; a Python exception is the value none.
* datetime.today() is passed explicitly as a rational number of seconds on
  the proleptic Gregorian calendar used by the datetime module (ordinal day
  count * 86400 + seconds into the day); fractional seconds are allowed.
* The external chain client is a parameter: the delegation-list query result
  and the per-name account-details lookup are arguments, and the write path
  (sign / broadcast / sleep) is recorded as a trace of effects.
-/

namespace Redeemer

/-! ## Parsing of amount strings, mirroring def amount (delegator.py lines 10-12) -/

/-- Numeric value of a list of decimal digit characters, most significant first. -/
def digitsToNat (cs : List Char) : ℕ :=
  cs.foldl (fun n c => 10 * n + (c.toNat - 48)) 0

/-- Parse an unsigned decimal numeral, digits with at most one point,
at least one digit overall, as accepted by Decimal("..."). -/
def parseUnsignedDecimal (cs : List Char) : Option ℚ :=
  let intPart := cs.takeWhile Char.isDigit
  let rest := cs.dropWhile Char.isDigit
  match rest with
  | [] =>
    if intPart.isEmpty then none else some (digitsToNat intPart)
  | '.' :: frac =>
    if frac.all Char.isDigit ∧ ¬(intPart.isEmpty ∧ frac.isEmpty) then
      some ((digitsToNat intPart : ℚ) + (digitsToNat frac : ℚ) / (10 : ℚ) ^ frac.length)
    else none
  | _ => none

/-- Parse a decimal numeral with optional sign, as accepted by Decimal("..."). -/
def parseDecimal (cs : List Char) : Option ℚ :=
  match cs with
  | '-' :: rest => (parseUnsignedDecimal rest).map Neg.neg
  | '+' :: rest => parseUnsignedDecimal rest
  | _ => parseUnsignedDecimal cs

/-- delegator.py lines 10-12: take the text before the first space
(s.split(" ")[0]) and read it as a Decimal; none models the exception on
malformed input. -/
def amount (steem_amount : String) : Option ℚ :=
  parseDecimal (steem_amount.data.takeWhile (fun c => c ≠ ' '))

/-! ## Timestamp parsing, mirroring datetime.strptime(date, "%Y-%m-%dT%H:%M:%S")
and the day arithmetic of days_since (delegator.py lines 14-24) -/

/-- Gregorian leap-year rule as used by the datetime module. -/
def isLeapYear (y : ℕ) : Bool :=
  (y % 4 == 0 && y % 100 != 0) || y % 400 == 0

/-- Days in a month of a given year (datetime calendar). -/
def daysInMonth (y m : ℕ) : ℕ :=
  if m = 2 then (if isLeapYear y then 29 else 28)
  else if m = 4 ∨ m = 6 ∨ m = 9 ∨ m = 11 then 30
  else 31

/-- Days before January 1 of year y, counting from year 1 (datetime ordinal). -/
def daysBeforeYear (y : ℕ) : ℕ :=
  (y - 1) * 365 + (y - 1) / 4 - (y - 1) / 100 + (y - 1) / 400

/-- Days before the first of month m in year y. -/
def daysBeforeMonth (y m : ℕ) : ℕ :=
  (List.range (m - 1)).foldl (fun acc i => acc + daysInMonth y (i + 1)) 0

/-- Proleptic Gregorian ordinal of a date (date(1,1,1).toordinal() = 1). -/
def toOrdinal (y m d : ℕ) : ℕ :=
  daysBeforeYear y + daysBeforeMonth y m + d

/-- Parse a timestamp in the fixed format YYYY-MM-DDTHH:MM:SS, validating
field ranges as strptime does, into seconds (ordinal day * 86400 plus the
seconds into the day); none models the ValueError on malformed input. -/
def parseTimestamp (s : String) : Option ℤ :=
  match s.data with
  | [y1, y2, y3, y4, '-', m1, m2, '-', d1, d2, 'T', h1, h2, ':', n1, n2, ':', s1, s2] =>
    if ([y1, y2, y3, y4, m1, m2, d1, d2, h1, h2, n1, n2, s1, s2]).all Char.isDigit then
      let y := digitsToNat [y1, y2, y3, y4]
      let mo := digitsToNat [m1, m2]
      let d := digitsToNat [d1, d2]
      let h := digitsToNat [h1, h2]
      let mi := digitsToNat [n1, n2]
      let se := digitsToNat [s1, s2]
      if 1 ≤ y ∧ 1 ≤ mo ∧ mo ≤ 12 ∧ 1 ≤ d ∧ d ≤ daysInMonth y mo ∧
          h ≤ 23 ∧ mi ≤ 59 ∧ se ≤ 59 then
        some ((toOrdinal y mo d : ℤ) * 86400 + h * 3600 + mi * 60 + se)
      else none
    else none
  | _ => none

/-- delegator.py lines 22-24: (datetime.today() - strptime(date)).days,
i.e. the floor of the interval in days; now is seconds (may be fractional). -/
def days_since (now : ℚ) (date : String) : Option ℤ :=
  (parseTimestamp date).map (fun t => ⌊(now - (t : ℚ)) / 86400⌋)

/-! ## Account records and decisions -/

/-- One enriched account record as consumed by vests_to_delegate: the raw
string fields returned by the chain plus the delegated amount attached by
get_delegated_accounts.  withdrawn and to_withdraw are the integer
withdrawal counters (the source applies int() to them). -/
structure Account where
  name : String
  vesting_shares : String
  vesting_shares_from_delegator : String
  last_bandwidth_update : String
  created : String
  last_post : String
  last_vote_time : String
  vesting_withdraw_rate : String
  withdrawn : ℤ
  to_withdraw : ℤ
  deriving DecidableEq

/-- Python max on strings is lexicographic by code point; max(a, b). -/
def strMax (a b : String) : String :=
  if a < b then b else a

/-- delegator.py lines 14-20: most recent of the four activity markers,
taken with Python max over the (fixed-format) date strings. -/
def lastActionDate (acct : Account) : String :=
  strMax (strMax (strMax acct.last_bandwidth_update acct.created) acct.last_post)
    acct.last_vote_time

/-- delegator.py lines 14-20: days since the most recent activity marker. -/
def inactive_days (now : ℚ) (acct : Account) : Option ℤ :=
  days_since now (lastActionDate acct)

/-- The decision dict built at delegator.py lines 122-126.  new_vests keeps
the exact rational target; the source renders it as text with
"%.6f VESTS" for the chain operation. -/
structure Decision where
  name : String
  shares : String
  delta_vests : ℚ
  new_vests : ℚ
  old_vests : String
  deriving DecidableEq

/-! ## Chain parameters (delegator.py lines 47-61) -/

/-- The four derived constants computed in Delegator.__init__. -/
structure ChainParams where
  STEEM_PER_VEST : ℚ
  TARGET_VESTS : ℚ
  MIN_VESTS_DELTA : ℚ
  MIN_VESTS : ℚ
  deriving DecidableEq

/-- TARGET_SP = 15 (delegator.py line 28). -/
def TARGET_SP : ℚ := 15

/-- delegator.py lines 47-61: derive the parameters from the two chain
snapshots.  Division is exact here (the source uses 28-digit Decimal
division); a zero denominator models the DivisionByZero exception. -/
def mkChainParams (total_vesting_fund_steem total_vesting_shares account_creation_fee :
    String) : Option ChainParams :=
  (amount total_vesting_fund_steem).bind (fun vesting_steem =>
  (amount total_vesting_shares).bind (fun vesting_shares =>
  (amount account_creation_fee).bind (fun fee =>
  if vesting_shares = 0 ∨ vesting_steem = 0 then none
  else
    let spv := vesting_steem / vesting_shares
    some { STEEM_PER_VEST := spv
           TARGET_VESTS := TARGET_SP / spv
           MIN_VESTS_DELTA := fee / spv
           MIN_VESTS := fee / spv * 10 })))

/-- The spec-stated invariant on the derived parameters: all positive, and
MIN_VESTS is exactly ten times MIN_VESTS_DELTA (the exact Decimal
multiplication at line 61). -/
def ChainParams.Valid (p : ChainParams) : Prop :=
  0 < p.TARGET_VESTS ∧ 0 < p.MIN_VESTS_DELTA ∧ p.MIN_VESTS = p.MIN_VESTS_DELTA * 10

instance (p : ChainParams) : Decidable p.Valid := by
  unfold ChainParams.Valid
  infer_instance

/-! ## The delegation policy (delegator.py lines 82-126) -/

/-- The float literal 0.000001 of line 97 as the exact rational value of the
IEEE double it denotes (Decimal-to-float comparison in Python is exact). -/
def withdrawEps : ℚ := 4722366482869645 / 4722366482869645213696

/-- delegator.py lines 97-100: signs that the account is withdrawing stake
or holds less than 200 own vests, suppressing any delegation increase. -/
@[reducible] def skip_increase (acct : Account) (account_vests withdraw_rate : ℚ) : Prop :=
  withdraw_rate > withdrawEps ∨ 0 < acct.withdrawn ∨ 0 < acct.to_withdraw ∨
    account_vests < 200

/-- delegator.py lines 87-95: the candidate target delegated amount; none
models a date-parse exception raised while evaluating inactive_days (only
reached when the first two branches do not fire). -/
def candidate_vests (p : ChainParams) (deplorables : List String) (now : ℚ)
    (acct : Account) (account_vests : ℚ) : Option ℚ :=
  if acct.name ∈ deplorables then some 0
  else if account_vests ≥ p.TARGET_VESTS then some 0
  else (inactive_days now acct).map (fun idays =>
    if idays > 90 then max p.MIN_VESTS (p.TARGET_VESTS / 3 - account_vests)
    else p.TARGET_VESTS - account_vests)

/-- delegator.py lines 106-116: round a positive sub-minimum target up to
MIN_VESTS; a zero target over a delegation below MIN_VESTS_DELTA is raised
above the bar first so that a later pass can zero it. -/
def roundTarget (p : ChainParams) (old_delegated_vests new_delegated_vests : ℚ) : ℚ :=
  if new_delegated_vests > 0 ∧ new_delegated_vests < p.MIN_VESTS then p.MIN_VESTS
  else if new_delegated_vests = 0 ∧ old_delegated_vests < p.MIN_VESTS_DELTA then
    max p.MIN_VESTS (old_delegated_vests + p.MIN_VESTS_DELTA)
  else new_delegated_vests

/-- delegator.py lines 97-126 after the amounts are parsed: the increase
guard, the rounding rules and the minimum-change filter; none is the
"no action" result (return None). -/
def settle (p : ChainParams) (acct : Account)
    (account_vests old_delegated_vests new_delegated_vests withdraw_rate : ℚ) :
    Option Decision :=
  if new_delegated_vests > old_delegated_vests ∧
      skip_increase acct account_vests withdraw_rate then
    none
  else if |roundTarget p old_delegated_vests new_delegated_vests - old_delegated_vests| <
      p.MIN_VESTS_DELTA then
    none
  else
    some { name := acct.name
           shares := acct.vesting_shares
           delta_vests := roundTarget p old_delegated_vests new_delegated_vests -
             old_delegated_vests
           new_vests := roundTarget p old_delegated_vests new_delegated_vests
           old_vests := acct.vesting_shares_from_delegator }

/-- delegator.py lines 82-126: the full per-account policy over the raw
record.  The outer Option models exceptions (malformed amount or date
strings); the inner Option is the decision-or-no-action result. -/
def vests_to_delegate (p : ChainParams) (deplorables : List String) (now : ℚ)
    (acct : Account) : Option (Option Decision) :=
  (amount acct.vesting_shares).bind (fun account_vests =>
  (amount acct.vesting_shares_from_delegator).bind (fun old_delegated_vests =>
  (candidate_vests p deplorables now acct account_vests).bind (fun new_delegated_vests =>
  (amount acct.vesting_withdraw_rate).bind (fun withdraw_rate =>
  some (settle p acct account_vests old_delegated_vests new_delegated_vests
    withdraw_rate)))))

/-! ## The account pager (delegator.py lines 63-80) -/

/-- One record of the delegation-list query: a delegatee name and the
delegated vesting shares, still as the amount string. -/
structure DelegationRecord where
  delegatee : String
  vesting_shares : String
  deriving DecidableEq

/-- delegator.py lines 67-70: if a cursor was passed, results are nonempty
and the first result repeats the cursor, drop that first result. -/
def dropCursorOverlap (last_idx : String) (results : List DelegationRecord) :
    List DelegationRecord :=
  match results with
  | [] => []
  | r :: rest => if last_idx ≠ "" ∧ r.delegatee = last_idx then rest else r :: rest

/-- Key list of the dict comprehension at line 75: delegatee names in first
occurrence order, without duplicates. -/
def dictKeys (results : List DelegationRecord) : List String :=
  results.foldl (fun ks r => if r.delegatee ∈ ks then ks else ks ++ [r.delegatee]) []

/-- Value lookup of that dict: the vesting_shares of the last record whose
delegatee equals the key (later comprehension entries overwrite earlier). -/
def dictGet (results : List DelegationRecord) (k : String) : String :=
  results.foldl (fun v r => if r.delegatee = k then r.vesting_shares else v) ""

/-- delegator.py lines 72-80 on the already de-duplicated record list: fetch
the details of each distinct delegatee (the external get_accounts call is the
details argument, assumed to answer for the queried names), attach the
delegated amount, and return the last delegatee as the next cursor. -/
def finishPage (results : List DelegationRecord) (details : String → Account) :
    List Account × Option String :=
  match results with
  | [] => ([], none)
  | r :: rs =>
    let accounts := (dictKeys (r :: rs)).map (fun n =>
      let acct := details n
      { acct with vesting_shares_from_delegator := dictGet (r :: rs) acct.name })
    (accounts, some ((r :: rs).getLast (List.cons_ne_nil r rs)).delegatee)

/-- delegator.py lines 63-80: the whole pager step, parameterized by the
delegation-list query result for (account, last_idx, limit). -/
def get_delegated_accounts (last_idx : String) (results : List DelegationRecord)
    (details : String → Account) : List Account × Option String :=
  finishPage (dropCursorOverlap last_idx results) details

/-! ## The page pipeline (delegator.py lines 128-169) -/

/-- delegator.py lines 128-130: apply the policy to every account of the
page; an exception in any call aborts the whole list comprehension (outer
none), then None entries are filtered out. -/
def get_delegation_deltas (p : ChainParams) (deplorables : List String) (now : ℚ)
    (accounts : List Account) : Option (List Decision) :=
  match accounts.mapM (vests_to_delegate p deplorables now) with
  | none => none
  | some deltas => some (deltas.filterMap id)

/-- The write-path steps of delegate, recorded as a trace: tx.sign() at line
161, tx.broadcast() at line 164, time.sleep(pause) at line 167. -/
inductive Effect where
  | sign
  | broadcast
  | sleep
  deriving DecidableEq

/-- delegator.py lines 132-169: one page of the pipeline.  The chain reads
are parameters (results, details); the returned trace lists the write-path
steps in execution order: tx.sign() runs whenever wifs is nonempty, and
tx.broadcast() plus the rate-limit sleep run only when dry_run is false. -/
def delegate (p : ChainParams) (deplorables : List String) (now : ℚ)
    (_delegator : String) (last_idx : String) (results : List DelegationRecord)
    (details : String → Account) (_expiration : ℕ) (dry_run : Bool)
    (wifs : List String) : Option ((List Decision × Option String) × List Effect) :=
  let page := get_delegated_accounts last_idx results details
  if page.1 = [] then some (([], page.2), [])
  else
    match get_delegation_deltas p deplorables now page.1 with
    | none => none
    | some deltas =>
      if deltas = [] then some (([], page.2), [])
      else
        some ((deltas, page.2),
          (if wifs ≠ [] then [Effect.sign] else []) ++
          (if dry_run = false then [Effect.broadcast, Effect.sleep] else []))

/-! ## Concrete fixtures used by witnesses and counterexamples -/

/-- A parameter snapshot with TARGET_VESTS = 1000, MIN_VESTS_DELTA = 1,
MIN_VESTS = 10 (STEEM_PER_VEST = 15 / 1000). -/
def pEx : ChainParams :=
  { STEEM_PER_VEST := 3 / 200, TARGET_VESTS := 1000, MIN_VESTS_DELTA := 1, MIN_VESTS := 10 }

/-- A concrete "now": midnight of 2020-01-02 in seconds. -/
def nowEx : ℚ := 737426 * 86400

/-- An ordinary account: 200 own vests, nothing delegated yet, active on
2020-01-01, no withdrawals. -/
def acctAlice : Account :=
  { name := "alice"
    vesting_shares := "200.000000 VESTS"
    vesting_shares_from_delegator := "0.000000 VESTS"
    last_bandwidth_update := "2020-01-01T00:00:00"
    created := "2020-01-01T00:00:00"
    last_post := "2020-01-01T00:00:00"
    last_vote_time := "2020-01-01T00:00:00"
    vesting_withdraw_rate := "0.000000 VESTS"
    withdrawn := 0
    to_withdraw := 0 }

/-- The decision the policy produces for acctAlice under pEx at nowEx. -/
def dAlice : Decision :=
  { name := "alice", shares := "200.000000 VESTS", delta_vests := 800,
    new_vests := 800, old_vests := "0.000000 VESTS" }

/-- A self-sufficient account: 1500 own vests (above target), 50 vests
currently delegated to it, active, no withdrawals. -/
def acctBig : Account :=
  { name := "bigfish"
    vesting_shares := "1500.000000 VESTS"
    vesting_shares_from_delegator := "50.000000 VESTS"
    last_bandwidth_update := "2020-01-01T00:00:00"
    created := "2020-01-01T00:00:00"
    last_post := "2020-01-01T00:00:00"
    last_vote_time := "2020-01-01T00:00:00"
    vesting_withdraw_rate := "0.000000 VESTS"
    withdrawn := 0
    to_withdraw := 0 }

/-- The decision the policy produces for acctBig: zero out the delegation. -/
def dBig : Decision :=
  { name := "bigfish", shares := "1500.000000 VESTS", delta_vests := -50,
    new_vests := 0, old_vests := "50.000000 VESTS" }

/-- acctBig after its delegated amount is replaced by dBig's new target. -/
def acctBigZeroed : Account :=
  { acctBig with vesting_shares_from_delegator := "0.000000 VESTS" }

/-- The decision the policy produces for acctBigZeroed: the rescue rule
raises the zero delegation back to MIN_VESTS. -/
def dBigRescue : Decision :=
  { name := "bigfish", shares := "1500.000000 VESTS", delta_vests := 10,
    new_vests := 10, old_vests := "0.000000 VESTS" }

/-- An excluded account: 500 own vests, 50 delegated, active, clean. -/
def acctBob : Account :=
  { name := "bob"
    vesting_shares := "500.000000 VESTS"
    vesting_shares_from_delegator := "50.000000 VESTS"
    last_bandwidth_update := "2020-01-01T00:00:00"
    created := "2020-01-01T00:00:00"
    last_post := "2020-01-01T00:00:00"
    last_vote_time := "2020-01-01T00:00:00"
    vesting_withdraw_rate := "0.000000 VESTS"
    withdrawn := 0
    to_withdraw := 0 }

/-- The decision for acctBob when "bob" is excluded: remove the delegation. -/
def dBob : Decision :=
  { name := "bob", shares := "500.000000 VESTS", delta_vests := -50,
    new_vests := 0, old_vests := "50.000000 VESTS" }

/-- A self-sufficient account with withdrawal activity (withdrawn = 7) and a
current delegation of 0.5, strictly between 0 and MIN_VESTS_DELTA = 1. -/
def acctCarol : Account :=
  { name := "carol"
    vesting_shares := "1500.000000 VESTS"
    vesting_shares_from_delegator := "0.500000 VESTS"
    last_bandwidth_update := "2020-01-01T00:00:00"
    created := "2020-01-01T00:00:00"
    last_post := "2020-01-01T00:00:00"
    last_vote_time := "2020-01-01T00:00:00"
    vesting_withdraw_rate := "0.000000 VESTS"
    withdrawn := 7
    to_withdraw := 0 }

/-- The decision for acctCarol: the rescue rule emits an increase even
though the increase guard is active, because the guard saw the pre-rescue
candidate target 0. -/
def dCarol : Decision :=
  { name := "carol", shares := "1500.000000 VESTS", delta_vests := 19 / 2,
    new_vests := 10, old_vests := "0.500000 VESTS" }

/-- A one-record delegation page naming alice. -/
def recsEx : List DelegationRecord := [{ delegatee := "alice", vesting_shares := "0.000000 VESTS" }]

/-- A details lookup answering acctAlice for every name. -/
def detailsEx : String → Account := fun _ => acctAlice

/-- Two-record delegation page used for the pager claims. -/
def recA : DelegationRecord := { delegatee := "a", vesting_shares := "1.000000 VESTS" }

/-- Second record of that page. -/
def recB : DelegationRecord := { delegatee := "b", vesting_shares := "2.000000 VESTS" }

/-! ## Helper lemmas -/

set_option maxRecDepth 1000000

/-- Reducing a bind over a known some. -/
theorem some_bind {α β : Type} (a : α) (f : α → Option β) : (some a).bind f = f a := rfl

/-- Unfolding vests_to_delegate when all four parses are known. -/
theorem vests_to_delegate_eq (p : ChainParams) (deplorables : List String) (now : ℚ)
    (acct : Account) (av old rate new0 : ℚ)
    (hav : amount acct.vesting_shares = some av)
    (hold : amount acct.vesting_shares_from_delegator = some old)
    (hcand : candidate_vests p deplorables now acct av = some new0)
    (hrate : amount acct.vesting_withdraw_rate = some rate) :
    vests_to_delegate p deplorables now acct = some (settle p acct av old new0 rate) := by
  unfold vests_to_delegate
  rw [hav, some_bind, hold, some_bind, hcand, some_bind, hrate, some_bind]

/-- Inversion of a successful run of vests_to_delegate. -/
theorem vests_to_delegate_inv {p : ChainParams} {deplorables : List String} {now : ℚ}
    {acct : Account} {r : Option Decision}
    (h : vests_to_delegate p deplorables now acct = some r) :
    ∃ av old new0 rate,
      amount acct.vesting_shares = some av ∧
      amount acct.vesting_shares_from_delegator = some old ∧
      candidate_vests p deplorables now acct av = some new0 ∧
      amount acct.vesting_withdraw_rate = some rate ∧
      r = settle p acct av old new0 rate := by
  unfold vests_to_delegate at h
  simp only [Option.bind_eq_some, Option.some.injEq] at h
  obtain ⟨av, hav, old, hold, new0, hcand, rate, hrate, hr⟩ := h
  exact ⟨av, old, new0, rate, hav, hold, hcand, hrate, hr.symm⟩

/-- What a successful settle pins down: the decision fields and the
minimum-change bound. -/
theorem settle_eq_some {p : ChainParams} {acct : Account} {av old new0 rate : ℚ}
    {d : Decision} (h : settle p acct av old new0 rate = some d) :
    d.delta_vests = roundTarget p old new0 - old ∧
    d.new_vests = roundTarget p old new0 ∧
    p.MIN_VESTS_DELTA ≤ |d.delta_vests| := by
  unfold settle at h
  split_ifs at h with h1 h2
  all_goals first
    | exact Option.noConfusion h
    | (obtain rfl := Option.some_inj.mp h
       exact ⟨rfl, rfl, not_lt.mp h2⟩)

/-- A candidate target is never negative (given positive parameters). -/
theorem candidate_vests_nonneg {p : ChainParams} {deplorables : List String} {now : ℚ}
    {acct : Account} {av new0 : ℚ} (hp : p.Valid)
    (h : candidate_vests p deplorables now acct av = some new0) :
    new0 = 0 ∨ 0 < new0 := by
  unfold candidate_vests at h
  split_ifs at h with h1 h2
  · exact Or.inl (Option.some_inj.mp h).symm
  · exact Or.inl (Option.some_inj.mp h).symm
  · rw [Option.map_eq_some'] at h
    obtain ⟨idays, -, hf⟩ := h
    subst hf
    split_ifs
    · refine Or.inr (lt_of_lt_of_le ?_ (le_max_left _ _))
      rw [hp.2.2]
      linarith [hp.2.1]
    · exact Or.inr (by linarith [not_le.mp h2])

/-- A candidate target for a non-excluded, below-target account is positive. -/
theorem candidate_vests_pos {p : ChainParams} {deplorables : List String} {now : ℚ}
    {acct : Account} {av new0 : ℚ} (hp : p.Valid)
    (hdep : acct.name ∉ deplorables) (hlt : av < p.TARGET_VESTS)
    (h : candidate_vests p deplorables now acct av = some new0) :
    0 < new0 := by
  unfold candidate_vests at h
  rw [if_neg hdep, if_neg (not_le.mpr hlt), Option.map_eq_some'] at h
  obtain ⟨idays, -, hf⟩ := h
  subst hf
  split_ifs
  · refine lt_of_lt_of_le ?_ (le_max_left _ _)
    rw [hp.2.2]
    linarith [hp.2.1]
  · linarith

/-- For a zero candidate target over a nonnegative prior delegation, the
policy always emits a decision: a reduction to zero when the prior amount is
at least MIN_VESTS_DELTA, and the Step-4 rescue increase otherwise. -/
theorem settle_zero_candidate (p : ChainParams) (acct : Account) (av old rate : ℚ)
    (hp : p.Valid) (hold0 : 0 ≤ old) :
    ∃ d : Decision, settle p acct av old 0 rate = some d ∧
      (p.MIN_VESTS_DELTA ≤ old → d.new_vests = 0 ∧ d.delta_vests = -old) ∧
      (old < p.MIN_VESTS_DELTA →
        d.new_vests = max p.MIN_VESTS (old + p.MIN_VESTS_DELTA) ∧ 0 < d.delta_vests) := by
  obtain ⟨-, hmvd, hmv⟩ := hp
  have hguard : ¬((0:ℚ) > old ∧ skip_increase acct av rate) := by
    rintro ⟨h0, -⟩
    exact absurd hold0 (not_le.mpr h0)
  refine ⟨{ name := acct.name, shares := acct.vesting_shares,
            delta_vests := roundTarget p old 0 - old,
            new_vests := roundTarget p old 0,
            old_vests := acct.vesting_shares_from_delegator }, ?_, ?_, ?_⟩ <;>
    by_cases hlt : old < p.MIN_VESTS_DELTA
  · have hrt : roundTarget p old 0 = max p.MIN_VESTS (old + p.MIN_VESTS_DELTA) := by
      unfold roundTarget
      rw [if_neg (by simp), if_pos ⟨rfl, hlt⟩]
    have h1 : p.MIN_VESTS ≤ max p.MIN_VESTS (old + p.MIN_VESTS_DELTA) := le_max_left _ _
    have hdelta : p.MIN_VESTS_DELTA ≤ roundTarget p old 0 - old := by
      rw [hrt]; linarith
    have hpos : (0:ℚ) < roundTarget p old 0 - old := by linarith
    unfold settle
    rw [if_neg hguard, if_neg (not_lt.mpr (le_trans hdelta (le_of_eq (abs_of_pos hpos).symm)))]
  · have hrt : roundTarget p old 0 = 0 := by
      unfold roundTarget
      rw [if_neg (by simp), if_neg (fun hc => hlt hc.2)]
    have habs : |roundTarget p old 0 - old| = old := by
      rw [hrt, zero_sub, abs_neg, abs_of_nonneg hold0]
    unfold settle
    rw [if_neg hguard, if_neg (not_lt.mpr (le_of_le_of_eq (not_lt.mp hlt) habs.symm))]
  · intro hge
    exact absurd hge (not_le.mpr hlt)
  · intro hge
    have hrt : roundTarget p old 0 = 0 := by
      unfold roundTarget
      rw [if_neg (by simp), if_neg (fun hc => hlt hc.2)]
    exact ⟨hrt, by rw [hrt, zero_sub]⟩
  · intro h2
    have hrt : roundTarget p old 0 = max p.MIN_VESTS (old + p.MIN_VESTS_DELTA) := by
      unfold roundTarget
      rw [if_neg (by simp), if_pos ⟨rfl, hlt⟩]
    have h1 : p.MIN_VESTS ≤ max p.MIN_VESTS (old + p.MIN_VESTS_DELTA) := le_max_left _ _
    refine ⟨hrt, ?_⟩
    show (0:ℚ) < roundTarget p old 0 - old
    rw [hrt]
    linarith
  · intro h2
    exact absurd h2 hlt

/-- Rounding a positive candidate target does not depend on the prior
delegated amount: it is the candidate itself, raised to MIN_VESTS if below. -/
theorem roundTarget_of_pos (p : ChainParams) (old new0 : ℚ) (hpos : 0 < new0) :
    roundTarget p old new0 = if new0 < p.MIN_VESTS then p.MIN_VESTS else new0 := by
  unfold roundTarget
  by_cases hsmall : new0 < p.MIN_VESTS
  · rw [if_pos ⟨hpos, hsmall⟩, if_pos hsmall]
  · rw [if_neg (fun hc => hsmall hc.2), if_neg (fun hc => (ne_of_gt hpos) hc.1), if_neg hsmall]

/-! ## Claim theorems -/

/-- C2: every decision vests_to_delegate emits satisfies the blockchain
minimum-delta constraint: its delta_vests is at least MIN_VESTS_DELTA in
absolute value; deltas smaller than that are filtered into "no action". -/
theorem c2_min_delta_filter (p : ChainParams) (deplorables : List String) (now : ℚ)
    (acct : Account) (d : Decision)
    (h : vests_to_delegate p deplorables now acct = some (some d)) :
    p.MIN_VESTS_DELTA ≤ |d.delta_vests| := by
  obtain ⟨av, old, new0, rate, -, -, -, -, hr⟩ := vests_to_delegate_inv h
  exact (settle_eq_some hr.symm).2.2

/-- Witness for C2 at a concrete input: alice gets a delta of 800 ≥ 1. -/
theorem c2_min_delta_filter_witness : pEx.MIN_VESTS_DELTA ≤ |dAlice.delta_vests| :=
  c2_min_delta_filter pEx [] nowEx acctAlice dAlice (by with_unfolding_all decide)

/-- C6: every emitted decision's absolute new target is either exactly 0 or
at least MIN_VESTS; positive sub-minimum targets are rounded up. -/
theorem c6_rounding_floor (p : ChainParams) (deplorables : List String) (now : ℚ)
    (acct : Account) (d : Decision) (hp : p.Valid)
    (h : vests_to_delegate p deplorables now acct = some (some d)) :
    d.new_vests = 0 ∨ p.MIN_VESTS ≤ d.new_vests := by
  obtain ⟨av, old, new0, rate, -, -, hcand, -, hr⟩ := vests_to_delegate_inv h
  obtain ⟨-, hnew, -⟩ := settle_eq_some hr.symm
  rw [hnew]
  unfold roundTarget
  split_ifs with h1 h2
  · exact Or.inr le_rfl
  · exact Or.inr (le_max_left _ _)
  · rcases candidate_vests_nonneg hp hcand with h0 | h0
    · exact Or.inl h0
    · rcases not_and_or.mp h1 with hc | hc
      · exact absurd h0 (by simpa using hc)
      · exact Or.inr (not_lt.mp hc)

/-- Witness for C6 at a concrete input: alice's new target 800 is ≥ 10. -/
theorem c6_rounding_floor_witness : dAlice.new_vests = 0 ∨ pEx.MIN_VESTS ≤ dAlice.new_vests :=
  c6_rounding_floor pEx [] nowEx acctAlice dAlice (by with_unfolding_all decide)
    (by with_unfolding_all decide)

/-- C8: cursor de-duplication in get_delegated_accounts: with a non-empty
cursor and a first record whose delegatee equals it, that first record is
dropped and only the rest of the page is processed; a non-matching first
record is kept, and nothing is dropped when the cursor is empty. -/
theorem c8_cursor_dedup (cursor : String) (r : DelegationRecord)
    (rest : List DelegationRecord) (details : String → Account) :
    (cursor ≠ "" → r.delegatee = cursor →
      get_delegated_accounts cursor (r :: rest) details = finishPage rest details) ∧
    (r.delegatee ≠ cursor →
      get_delegated_accounts cursor (r :: rest) details = finishPage (r :: rest) details) ∧
    get_delegated_accounts "" (r :: rest) details = finishPage (r :: rest) details := by
  refine ⟨fun h1 h2 => ?_, fun h => ?_, ?_⟩
  · unfold get_delegated_accounts
    simp only [dropCursorOverlap]
    rw [if_pos ⟨h1, h2⟩]
  · unfold get_delegated_accounts
    simp only [dropCursorOverlap]
    rw [if_neg (fun hc => h hc.2)]
  · unfold get_delegated_accounts
    simp only [dropCursorOverlap]
    rw [if_neg (by simp)]

/-- Witness for C8 at a concrete input: cursor "a" drops the leading record
for delegatee "a" and only "b" remains. -/
theorem c8_cursor_dedup_witness :
    get_delegated_accounts "a" [recA, recB] detailsEx = finishPage [recB] detailsEx :=
  (c8_cursor_dedup "a" recA [recB] detailsEx).1 (by decide) (by decide)

/-- C9: when no records remain after cursor de-duplication, the pager
returns an empty account list and the terminal cursor none. -/
theorem c9_empty_page_terminal (cursor : String) (results : List DelegationRecord)
    (details : String → Account) (h : dropCursorOverlap cursor results = []) :
    get_delegated_accounts cursor results details = ([], none) := by
  unfold get_delegated_accounts
  rw [h]
  rfl

/-- Witness for C9 at a concrete input: a page holding only the cursor
record de-duplicates to nothing and terminates pagination. -/
theorem c9_empty_page_terminal_witness :
    get_delegated_accounts "a" [recA] detailsEx = ([], none) :=
  c9_empty_page_terminal "a" [recA] detailsEx (by decide)

/-- C10: totality on well-formed input: when the three amount fields parse
and the four date fields parse, vests_to_delegate returns a value (decision
or no action) and never reaches the exception case. -/
theorem c10_total_on_wellformed (p : ChainParams) (deplorables : List String) (now : ℚ)
    (acct : Account) (av old rate : ℚ) (t1 t2 t3 t4 : ℤ)
    (hav : amount acct.vesting_shares = some av)
    (hold : amount acct.vesting_shares_from_delegator = some old)
    (hrate : amount acct.vesting_withdraw_rate = some rate)
    (h1 : parseTimestamp acct.last_bandwidth_update = some t1)
    (h2 : parseTimestamp acct.created = some t2)
    (h3 : parseTimestamp acct.last_post = some t3)
    (h4 : parseTimestamp acct.last_vote_time = some t4) :
    ∃ r, vests_to_delegate p deplorables now acct = some r := by
  have hmax : ∃ t, parseTimestamp (lastActionDate acct) = some t := by
    unfold lastActionDate strMax
    split_ifs <;>
      first
        | exact ⟨t1, h1⟩
        | exact ⟨t2, h2⟩
        | exact ⟨t3, h3⟩
        | exact ⟨t4, h4⟩
  obtain ⟨t, ht⟩ := hmax
  have hcand : ∃ c, candidate_vests p deplorables now acct av = some c := by
    unfold candidate_vests
    split_ifs
    · exact ⟨0, rfl⟩
    · exact ⟨0, rfl⟩
    · exact ⟨_, by rw [inactive_days, days_since, ht]; rfl⟩
  obtain ⟨c, hc⟩ := hcand
  exact ⟨settle p acct av old c rate,
    vests_to_delegate_eq p deplorables now acct av old rate c hav hold hc hrate⟩

/-- Witness for C10 at a concrete input: alice's record is well-formed and
the policy returns a value on it. -/
theorem c10_total_on_wellformed_witness :
    ∃ r, vests_to_delegate pEx [] nowEx acctAlice = some r :=
  c10_total_on_wellformed pEx [] nowEx acctAlice 200 0 0
    63713520000 63713520000 63713520000 63713520000
    (by with_unfolding_all decide) (by with_unfolding_all decide)
    (by with_unfolding_all decide) (by decide) (by decide) (by decide) (by decide)

/-- C1 counterexample: acctBig has 1500 own vests ≥ TARGET_VESTS = 1000, is
not inactive (1 day), is otherwise unmodified, yet vests_to_delegate emits a
decision (zero out the 50 delegated vests) instead of "no action". -/
theorem c1_counterexample :
    pEx.Valid ∧
    amount acctBig.vesting_shares = some 1500 ∧
    pEx.TARGET_VESTS ≤ 1500 ∧
    inactive_days nowEx acctBig = some 1 ∧
    vests_to_delegate pEx [] nowEx acctBig = some (some dBig) ∧
    vests_to_delegate pEx [] nowEx acctBig ≠ some none := by
  with_unfolding_all decide

/-- C1 amended: for an account whose own stake meets the target, the
candidate target is 0, and the policy always emits a decision rather than
"no action": a reduction to exactly 0 when the prior delegated amount is at
least MIN_VESTS_DELTA, and the Step-4 rescue increase to
max(MIN_VESTS, old + MIN_VESTS_DELTA) when it is below. -/
theorem c1_self_sufficient_always_acts (p : ChainParams) (deplorables : List String)
    (now : ℚ) (acct : Account) (av old rate : ℚ)
    (hp : p.Valid)
    (hav : amount acct.vesting_shares = some av)
    (hold : amount acct.vesting_shares_from_delegator = some old)
    (hrate : amount acct.vesting_withdraw_rate = some rate)
    (htarget : p.TARGET_VESTS ≤ av)
    (hold0 : 0 ≤ old) :
    ∃ d : Decision, vests_to_delegate p deplorables now acct = some (some d) ∧
      (p.MIN_VESTS_DELTA ≤ old → d.new_vests = 0 ∧ d.delta_vests = -old) ∧
      (old < p.MIN_VESTS_DELTA →
        d.new_vests = max p.MIN_VESTS (old + p.MIN_VESTS_DELTA) ∧ 0 < d.delta_vests) := by
  have hcand : candidate_vests p deplorables now acct av = some 0 := by
    unfold candidate_vests
    by_cases hdep : acct.name ∈ deplorables
    · rw [if_pos hdep]
    · rw [if_neg hdep, if_pos htarget]
  obtain ⟨d, hd, h1, h2⟩ := settle_zero_candidate p acct av old rate hp hold0
  refine ⟨d, ?_, h1, h2⟩
  rw [vests_to_delegate_eq p deplorables now acct av old rate 0 hav hold hcand hrate, hd]

/-- Witness for the amended C1 at a concrete input: acctBig (1500 own vests,
50 delegated) gets its delegation reduced to 0. -/
theorem c1_self_sufficient_always_acts_witness :
    ∃ d : Decision, vests_to_delegate pEx [] nowEx acctBig = some (some d) ∧
      (pEx.MIN_VESTS_DELTA ≤ 50 → d.new_vests = 0 ∧ d.delta_vests = -50) ∧
      ((50:ℚ) < pEx.MIN_VESTS_DELTA →
        d.new_vests = max pEx.MIN_VESTS (50 + pEx.MIN_VESTS_DELTA) ∧ 0 < d.delta_vests) :=
  c1_self_sufficient_always_acts pEx [] nowEx acctBig 1500 50 0
    (by with_unfolding_all decide) (by with_unfolding_all decide)
    (by with_unfolding_all decide) (by with_unfolding_all decide)
    (by with_unfolding_all decide) (by with_unfolding_all decide)

/-- C3 counterexample: with dry_run = true and one signing key supplied, the
page pipeline still invokes tx.sign(): the effect trace is [sign].  Dry run
only suppresses broadcasting, not signing. -/
theorem c3_counterexample :
    delegate pEx [] nowEx "grantor" "" recsEx detailsEx 60 true ["wif"] =
      some (([dAlice], some "alice"), [Effect.sign]) ∧
    Effect.sign ∈ [Effect.sign] := by
  with_unfolding_all decide

/-- C3 amended: when dry_run is true the broadcast step is never invoked
(decisions are still computed and returned); the signing step however is
controlled solely by whether credentials are supplied. -/
theorem c3_dry_run_no_broadcast (p : ChainParams) (deplorables : List String) (now : ℚ)
    (delegator last : String) (results : List DelegationRecord)
    (details : String → Account) (exp : ℕ) (wifs : List String)
    (out : List Decision × Option String) (effs : List Effect)
    (h : delegate p deplorables now delegator last results details exp true wifs =
      some (out, effs)) :
    Effect.broadcast ∉ effs := by
  unfold delegate at h
  dsimp only at h
  by_cases h1 : (get_delegated_accounts last results details).1 = []
  · rw [if_pos h1] at h
    simp only [Option.some.injEq, Prod.mk.injEq] at h
    obtain ⟨-, rfl⟩ := h
    simp
  · rw [if_neg h1] at h
    rcases hgd : get_delegation_deltas p deplorables now
        (get_delegated_accounts last results details).1 with - | deltas
    · rw [hgd] at h
      exact Option.noConfusion h
    · rw [hgd] at h
      dsimp only at h
      by_cases h2 : deltas = []
      · rw [if_pos h2] at h
        simp only [Option.some.injEq, Prod.mk.injEq] at h
        obtain ⟨-, rfl⟩ := h
        simp
      · rw [if_neg h2] at h
        simp only [Option.some.injEq, Prod.mk.injEq] at h
        obtain ⟨-, rfl⟩ := h
        by_cases hw : wifs = [] <;> simp [hw]

/-- Witness for the amended C3 at a concrete input: the dry-run trace for
the alice page with one key is [sign], which does not contain broadcast. -/
theorem c3_dry_run_no_broadcast_witness : Effect.broadcast ∉ [Effect.sign] :=
  c3_dry_run_no_broadcast pEx [] nowEx "grantor" "" recsEx detailsEx 60 ["wif"]
    ([dAlice], some "alice") [Effect.sign] (by with_unfolding_all decide)

/-- C4 counterexample: acctBig gets the decision "reduce to 0"; re-running
the policy with the delegated amount replaced by that new target 0 does not
give "no action" the second time: the Step-4 rescue emits an increase back
to MIN_VESTS. -/
theorem c4_counterexample :
    vests_to_delegate pEx [] nowEx acctBig = some (some dBig) ∧
    amount acctBigZeroed.vesting_shares_from_delegator = some dBig.new_vests ∧
    vests_to_delegate pEx [] nowEx acctBigZeroed = some (some dBigRescue) ∧
    vests_to_delegate pEx [] nowEx acctBigZeroed ≠ some none := by
  with_unfolding_all decide

/-- C4 amended: the policy is idempotent on accounts whose candidate target
is positive (not excluded and own stake below target): after replacing the
delegated amount by the emitted decision's new target, a second run yields
"no action".  (For zero-target accounts the second run acts again, as the
counterexample shows.) -/
theorem c4_idempotent_on_positive_targets (p : ChainParams) (deplorables : List String)
    (now : ℚ) (acct : Account) (av : ℚ) (s : String) (d : Decision)
    (hp : p.Valid)
    (hav : amount acct.vesting_shares = some av)
    (hdep : acct.name ∉ deplorables)
    (hlt : av < p.TARGET_VESTS)
    (h1 : vests_to_delegate p deplorables now acct = some (some d))
    (hs : amount s = some d.new_vests) :
    vests_to_delegate p deplorables now
      { acct with vesting_shares_from_delegator := s } = some none := by
  obtain ⟨av2, old, new0, rate, hav2, hold, hcand, hrate, hr⟩ := vests_to_delegate_inv h1
  rw [hav] at hav2
  obtain rfl : av = av2 := Option.some_inj.mp hav2
  have hpos : 0 < new0 := candidate_vests_pos hp hdep hlt hcand
  obtain ⟨-, hnV, -⟩ := settle_eq_some hr.symm
  have hav' : amount ({ acct with vesting_shares_from_delegator := s } :
      Account).vesting_shares = some av := hav
  have hold' : amount ({ acct with vesting_shares_from_delegator := s } :
      Account).vesting_shares_from_delegator = some d.new_vests := hs
  have hcand' : candidate_vests p deplorables now
      { acct with vesting_shares_from_delegator := s } av = some new0 := hcand
  have hrate' : amount ({ acct with vesting_shares_from_delegator := s } :
      Account).vesting_withdraw_rate = some rate := hrate
  rw [vests_to_delegate_eq p deplorables now _ av d.new_vests rate new0 hav' hold'
    hcand' hrate', hnV]
  have hT := roundTarget_of_pos p old new0 hpos
  have hT2 := roundTarget_of_pos p (roundTarget p old new0) new0 hpos
  have hngt : ¬ new0 > roundTarget p old new0 := by
    rw [hT]
    split_ifs with hsmall
    · exact not_lt.mpr hsmall.le
    · exact lt_irrefl new0
  have hsettle : settle p { acct with vesting_shares_from_delegator := s } av
      (roundTarget p old new0) new0 rate = none := by
    unfold settle
    rw [if_neg (fun hc => hngt hc.1), hT2, hT, sub_self, abs_zero, if_pos hp.2.1]
  rw [hsettle]

/-- Witness for the amended C4 at a concrete input: after alice's delegation
is set to the emitted target 800, a second run yields "no action". -/
theorem c4_idempotent_on_positive_targets_witness :
    vests_to_delegate pEx [] nowEx
      { acctAlice with vesting_shares_from_delegator := "800.000000 VESTS" } = some none :=
  c4_idempotent_on_positive_targets pEx [] nowEx acctAlice 200 "800.000000 VESTS" dAlice
    (by with_unfolding_all decide) (by with_unfolding_all decide)
    (by with_unfolding_all decide) (by with_unfolding_all decide)
    (by with_unfolding_all decide) (by with_unfolding_all decide)

/-- C5: for an account in the exclusion set the candidate target is 0, and
when its current delegated amount is at least MIN_VESTS_DELTA (so the Step-4
rescue does not apply) every emitted decision drives the delegation to 0
with a strictly negative delta: the delegation is never increased. -/
theorem c5_excluded_never_increased (p : ChainParams) (deplorables : List String)
    (now : ℚ) (acct : Account) (av old rate : ℚ)
    (hp : p.Valid)
    (hdep : acct.name ∈ deplorables)
    (hav : amount acct.vesting_shares = some av)
    (hold : amount acct.vesting_shares_from_delegator = some old)
    (hrate : amount acct.vesting_withdraw_rate = some rate)
    (hmin : p.MIN_VESTS_DELTA ≤ old) :
    candidate_vests p deplorables now acct av = some 0 ∧
    ∀ d : Decision, vests_to_delegate p deplorables now acct = some (some d) →
      d.delta_vests < 0 ∧ d.new_vests = 0 := by
  have hcand : candidate_vests p deplorables now acct av = some 0 := by
    unfold candidate_vests
    rw [if_pos hdep]
  have hold0 : 0 ≤ old := le_trans hp.2.1.le hmin
  refine ⟨hcand, fun d hd => ?_⟩
  obtain ⟨d2, hd2, hrule, -⟩ := settle_zero_candidate p acct av old rate hp hold0
  have hrun := vests_to_delegate_eq p deplorables now acct av old rate 0 hav hold hcand hrate
  rw [hrun, hd2] at hd
  obtain rfl : d2 = d := Option.some_inj.mp (Option.some_inj.mp hd)
  obtain ⟨hz, hdelta⟩ := hrule hmin
  have hposold : 0 < old := lt_of_lt_of_le hp.2.1 hmin
  refine ⟨?_, hz⟩
  rw [hdelta]
  linarith

/-- Witness for C5 at a concrete input: excluded bob with 50 delegated gets
delta −50 and new target 0. -/
theorem c5_excluded_never_increased_witness :
    candidate_vests pEx ["bob"] nowEx acctBob 500 = some 0 ∧
    dBob.delta_vests < 0 ∧ dBob.new_vests = 0 := by
  have h := c5_excluded_never_increased pEx ["bob"] nowEx acctBob 500 50 0
    (by with_unfolding_all decide) (by decide) (by with_unfolding_all decide)
    (by with_unfolding_all decide) (by with_unfolding_all decide)
    (by with_unfolding_all decide)
  obtain ⟨hd1, hd2⟩ := h.2 dBob (by with_unfolding_all decide)
  exact ⟨h.1, hd1, hd2⟩

/-- C7: the increase guard does not cover rescue-rule increases: acctCarol
shows withdrawal activity (withdrawn = 7 > 0), its candidate target is 0,
its current delegated amount 0.5 lies strictly between 0 and
MIN_VESTS_DELTA = 1, and vests_to_delegate still emits a decision with
strictly positive delta 9.5, because the guard tested the pre-rescue
candidate target. -/
theorem c7_rescue_bypasses_increase_guard :
    0 < acctCarol.withdrawn ∧
    amount acctCarol.vesting_shares_from_delegator = some (1 / 2) ∧
    (0:ℚ) < 1 / 2 ∧ (1 / 2 : ℚ) < pEx.MIN_VESTS_DELTA ∧
    candidate_vests pEx [] nowEx acctCarol 1500 = some 0 ∧
    vests_to_delegate pEx [] nowEx acctCarol = some (some dCarol) ∧
    0 < dCarol.delta_vests := by
  with_unfolding_all decide

end Redeemer
